import Mathlib

/-!
Verification of the CQC monitor bot core (src/bot.py).

The development shallowly embeds the parts of the program that the
verified properties concern:
  the tenant store (class ServerDatabase: add_server, remove_server,
  enable_server, disable_server, get_active_servers,
  update_last_action_id, get_server_count),
  the diff formatter (format_diff),
  the dispatcher outcome handling (send_update_to_server),
  and one iteration of the polling loop body (monitoring_task).

Modelling conventions:
  The JSON store data["servers"] is a Python dict; it is embedded as an
  association list of (guild id, config) pairs with dict semantics
  (assignment replaces in place or appends, deletion filters, field
  update maps over the matching key).  Guild ids are modelled directly
  as the string keys the Python code produces with str(guild_id).
  A JSON object that may lack a key is embedded with Option fields and
  the corresponding .get default; channel_id is accessed unconditionally
  by the code (config["channel_id"]) and is therefore a plain field.
  Network and chat-platform effects are oracles supplied per cycle:
  the fetched head, the fetched diff body, the per-tenant delivery
  outcome, and whether the storage write inside update_last_action_id
  raises.  Exceptions inside send_update_to_server are caught by that
  function itself (modelled by its outcome type); the only modelled
  raise point inside the per-tenant loop body is the storage write,
  which is outside any inner try block in the source.
-/

namespace CQC

/-- One entry of data["servers"]: the per-tenant JSON object.  Optional
fields model keys that the code reads with .get and a default. -/
structure ServerConfig where
  channel_id : Nat
  enabled : Option Bool
  last_action_id : Option Nat
  guild_name : Option String
  channel_name : Option String
  added_at : Option String
deriving DecidableEq

/-- The tenant store: the dict data["servers"] as an association list. -/
structure ServerDB where
  servers : List (String × ServerConfig)
deriving DecidableEq

/-- Dict lookup: first pair with the given key. -/
def lookupCfg : List (String × ServerConfig) → String → Option ServerConfig
  | [], _ => none
  | p :: rest, k => if p.1 = k then some p.2 else lookupCfg rest k

/-- Dict assignment d[k] = v: replace the entry in place if the key is
present, otherwise append at the end. -/
def dictInsert (g : String) (v : ServerConfig) :
    List (String × ServerConfig) → List (String × ServerConfig)
  | [] => [(g, v)]
  | p :: rest => if p.1 = g then (g, v) :: rest else p :: dictInsert g v rest

/-- Dict deletion del d[k]. -/
def dictErase (g : String) :
    List (String × ServerConfig) → List (String × ServerConfig)
  | [] => []
  | p :: rest => if p.1 = g then dictErase g rest else p :: dictErase g rest

/-- Field update d[k].field = x for a present key; identity when absent
(the Python methods guard with: if str(guild_id) in self.data["servers"]). -/
def dictModify (g : String) (f : ServerConfig → ServerConfig) :
    List (String × ServerConfig) → List (String × ServerConfig)
  | [] => []
  | p :: rest =>
    if p.1 = g then (p.1, f p.2) :: dictModify g f rest
    else p :: dictModify g f rest

def ServerDB.lookup (db : ServerDB) (g : String) : Option ServerConfig :=
  lookupCfg db.servers g

/-- The fresh entry written by ServerDatabase.add_server: enabled True,
last_action_id 0, added_at the current time (passed in as a parameter). -/
def newServerConfig (cid : Nat) (gname cname : Option String) (now : String) :
    ServerConfig :=
  { channel_id := cid
    enabled := some true
    last_action_id := some 0
    guild_name := gname
    channel_name := cname
    added_at := some now }

/-- ServerDatabase.add_server (bot.py lines 41-52). -/
def add_server (db : ServerDB) (g : String) (cid : Nat)
    (gname cname : Option String) (now : String) : ServerDB :=
  ⟨dictInsert g (newServerConfig cid gname cname now) db.servers⟩

/-- ServerDatabase.remove_server (bot.py lines 54-58). -/
def remove_server (db : ServerDB) (g : String) : ServerDB :=
  ⟨dictErase g db.servers⟩

/-- ServerDatabase.disable_server (bot.py lines 60-64). -/
def disable_server (db : ServerDB) (g : String) : ServerDB :=
  ⟨dictModify g (fun c => { c with enabled := some false }) db.servers⟩

/-- ServerDatabase.enable_server (bot.py lines 66-70). -/
def enable_server (db : ServerDB) (g : String) : ServerDB :=
  ⟨dictModify g (fun c => { c with enabled := some true }) db.servers⟩

/-- ServerDatabase.update_last_action_id (bot.py lines 86-90). -/
def update_last_action_id (db : ServerDB) (g : String) (aid : Nat) : ServerDB :=
  ⟨dictModify g (fun c => { c with last_action_id := some aid }) db.servers⟩

/-- The per-tenant record built by get_active_servers for the loop. -/
structure ActiveInfo where
  guild_id : String
  channel_id : Nat
  last_action_id : Nat
  guild_name : String
  channel_name : String
deriving DecidableEq

/-- The loop body of ServerDatabase.get_active_servers (bot.py 72-84):
keep entries whose enabled defaults to True when missing. -/
def activeList : List (String × ServerConfig) → List ActiveInfo
  | [] => []
  | (g, c) :: rest =>
    if c.enabled.getD true then
      { guild_id := g
        channel_id := c.channel_id
        last_action_id := c.last_action_id.getD 0
        guild_name := c.guild_name.getD "Unknown"
        channel_name := c.channel_name.getD "Unknown" } :: activeList rest
    else activeList rest

/-- ServerDatabase.get_active_servers (bot.py lines 72-84). -/
def get_active_servers (db : ServerDB) : List ActiveInfo :=
  activeList db.servers

/-- The guild ids returned by get_active_servers. -/
def activeIds (db : ServerDB) : List String :=
  (get_active_servers db).map ActiveInfo.guild_id

/-- The comprehension inside ServerDatabase.get_server_count. -/
def countEnabled : List (String × ServerConfig) → Nat
  | [] => 0
  | (_, c) :: rest => (if c.enabled.getD true then 1 else 0) + countEnabled rest

/-- ServerDatabase.get_server_count (bot.py lines 92-94). -/
def get_server_count (db : ServerDB) : Nat :=
  countEnabled db.servers

/-- One diff entry as consumed by format_diff; every key is read with
.get and a default, so all fields are optional. -/
structure ActivityRecord where
  squadron_name : Option String
  tag : Option String
  total_experience_diff : Option Int
  timestamp : Option String
deriving DecidableEq

/-- Group a reversed digit list in threes with commas, as the Python
format spec with a comma does. -/
def chunk3 : List Char → List Char
  | a :: b :: c :: rest =>
    if rest = [] then [a, b, c] else a :: b :: c :: ',' :: chunk3 rest
  | l => l

/-- The Python thousands-grouping integer format. -/
def commaFormat (n : Int) : String :=
  (if n < 0 then "-" else "") ++
    String.mk (chunk3 (Nat.toDigits 10 n.natAbs).reverse).reverse

/-- The highlighted_squadrons table in format_diff. -/
def highlighted_squadrons : List (String × String) :=
  [("WE ROCK YOU ROLL", "🔸")]

/-- Lookup in the highlighted_squadrons dict. -/
def lookupStr : List (String × String) → String → Option String
  | [], _ => none
  | p :: rest, k => if p.1 = k then some p.2 else lookupStr rest k

/-- One line of the summary built in the loop of format_diff. -/
def formatLine (r : ActivityRecord) : String :=
  (lookupStr highlighted_squadrons (r.squadron_name.getD "Unknown")).getD "🔹"
    ++ " " ++ r.squadron_name.getD "Unknown"
    ++ " (" ++ r.tag.getD "Unknown" ++ ") gained "
    ++ commaFormat (r.total_experience_diff.getD 0) ++ " points"

/-- The expression timestamps[-1], guarded by nonemptiness in the code. -/
def lastD : List String → String → String
  | [], d => d
  | [x], _ => x
  | _ :: y :: rest, d => lastD (y :: rest) d

/-- format_diff (bot.py lines 122-146).  The none argument is the null
diff body; the falsy test "if not data" also catches the empty list. -/
def format_diff (data : Option (List ActivityRecord)) :
    Option String × Option String :=
  match data with
  | none => (none, none)
  | some records =>
    if records.isEmpty then (none, none)
    else
      (if (records.map formatLine).isEmpty then none
       else some (String.intercalate "\n" (records.map formatLine)),
       if (records.map (fun r => r.timestamp.getD "")).isEmpty then none
       else some (lastD (records.map (fun r => r.timestamp.getD "")) ""))

/-- The five exits of send_update_to_server (bot.py lines 148-168):
bot.get_channel returned None, channel.send succeeded, discord.Forbidden,
discord.NotFound, any other exception. -/
inductive SendOutcome where
  | channelNone
  | sendOk
  | forbidden
  | notFound
  | otherError
deriving DecidableEq

/-- send_update_to_server: the store effect and the returned boolean of
each exit.  The channel lookup and the send are supplied as an outcome
oracle; the function itself never raises (every path is inside its try). -/
def send_update_to_server (db : ServerDB) (info : ActiveInfo)
    (out : SendOutcome) : ServerDB × Bool :=
  match out with
  | SendOutcome.channelNone => (remove_server db info.guild_id, false)
  | SendOutcome.sendOk => (db, true)
  | SendOutcome.forbidden => (db, false)
  | SendOutcome.notFound => (remove_server db info.guild_id, false)
  | SendOutcome.otherError => (db, false)

/-- The external world during one poll cycle: the head action id from
the leaderboard (none when the fetch failed or the body was falsy), the
diff body returned by fetch_diff(latest_action_id), the delivery outcome
per guild id, and whether the storage write inside update_last_action_id
raises for a given guild id. -/
structure CycleEnv where
  leaderboard : Option Nat
  diff : Option (List ActivityRecord)
  send : String → SendOutcome
  raisesOnUpdate : String → Bool

/-- Observable per-cycle events: guild ids for which a diff was fetched,
for which send_update_to_server was invoked, and for which the send
succeeded (updates_sent was incremented). -/
structure CycleLog where
  fetched : List String
  dispatched : List String
  delivered : List String
deriving DecidableEq

def emptyLog : CycleLog := { fetched := [], dispatched := [], delivered := [] }

def logF (log : CycleLog) (g : String) : CycleLog :=
  { log with fetched := log.fetched ++ [g] }

def logFD (log : CycleLog) (g : String) : CycleLog :=
  { log with
    fetched := log.fetched ++ [g]
    dispatched := log.dispatched ++ [g] }

def logFDD (log : CycleLog) (g : String) : CycleLog :=
  { fetched := log.fetched ++ [g]
    dispatched := log.dispatched ++ [g]
    delivered := log.delivered ++ [g] }

/-- The Python truthiness test "if msg:" on the first component of
format_diff. -/
def msgTruthy (env : CycleEnv) : Bool :=
  match (format_diff env.diff).1 with
  | none => false
  | some s => !s.isEmpty

/-- One iteration of the per-tenant loop body (bot.py lines 194-218),
for one ActiveInfo from the snapshot taken at the start of the cycle.
An error value models an uncaught exception in the storage write of
update_last_action_id (raised after the in-memory field is set), which
propagates past the loop to the per-cycle except block. -/
def processOne (env : CycleEnv) (head : Nat) (st : ServerDB × CycleLog)
    (info : ActiveInfo) :
    Except (ServerDB × CycleLog) (ServerDB × CycleLog) :=
  if head > info.last_action_id then
    if msgTruthy env then
      if (send_update_to_server st.1 info (env.send info.guild_id)).2 then
        if env.raisesOnUpdate info.guild_id then
          Except.error
            (update_last_action_id
              (send_update_to_server st.1 info (env.send info.guild_id)).1
              info.guild_id head,
             logFDD st.2 info.guild_id)
        else
          Except.ok
            (update_last_action_id
              (send_update_to_server st.1 info (env.send info.guild_id)).1
              info.guild_id head,
             logFDD st.2 info.guild_id)
      else
        Except.ok
          ((send_update_to_server st.1 info (env.send info.guild_id)).1,
           logFD st.2 info.guild_id)
    else Except.ok (st.1, logF st.2 info.guild_id)
  else Except.ok st

/-- The for loop over active_servers: sequential, stopping at the first
uncaught exception. -/
def processServers (env : CycleEnv) (head : Nat) :
    ServerDB × CycleLog → List ActiveInfo →
    Except (ServerDB × CycleLog) (ServerDB × CycleLog)
  | st, [] => Except.ok st
  | st, info :: rest =>
    match processOne env head st info with
    | Except.ok st2 => processServers env head st2 rest
    | Except.error e => Except.error e

/-- The per-cycle except block: an exception escaping the tenant loop is
caught and the loop proceeds to the sleep, keeping the state reached. -/
def outState :
    Except (ServerDB × CycleLog) (ServerDB × CycleLog) → ServerDB × CycleLog
  | Except.ok st => st
  | Except.error st => st

/-- One iteration of the while loop of monitoring_task (bot.py 175-228):
bail out when the leaderboard fetch fails or no server is active,
otherwise run the per-tenant loop on the active snapshot under the
per-cycle except block. -/
def runCycle (db : ServerDB) (env : CycleEnv) : ServerDB × CycleLog :=
  match env.leaderboard with
  | none => (db, emptyLog)
  | some head =>
    if (get_active_servers db).isEmpty then (db, emptyLog)
    else outState (processServers env head (db, emptyLog) (get_active_servers db))

/-- The inbound control operations that mutate the tenant store
(register or update, remove on leave, enable, disable). -/
inductive StoreOp where
  | upsert (g : String) (cid : Nat) (gname cname : Option String) (now : String)
  | remove (g : String)
  | enable (g : String)
  | disable (g : String)

/-- The tenant a store operation targets. -/
def StoreOp.gid : StoreOp → String
  | StoreOp.upsert g _ _ _ _ => g
  | StoreOp.remove g => g
  | StoreOp.enable g => g
  | StoreOp.disable g => g

/-- Interpretation of one store operation. -/
def applyOp (db : ServerDB) : StoreOp → ServerDB
  | StoreOp.upsert g cid gn cn now => add_server db g cid gn cn now
  | StoreOp.remove g => remove_server db g
  | StoreOp.enable g => enable_server db g
  | StoreOp.disable g => disable_server db g

/-- Run a sequence of store operations from the empty store (the
bootstrap state after a missing-file startup). -/
def runOps (ops : List StoreOp) : ServerDB :=
  ops.foldl applyOp ⟨[]⟩

/-- The effect of one store operation on the entry under its own key. -/
def opEffect : StoreOp → Option ServerConfig → Option ServerConfig
  | StoreOp.upsert _ cid gn cn now, _ => some (newServerConfig cid gn cn now)
  | StoreOp.remove _, _ => none
  | StoreOp.enable _, o => o.map (fun c => { c with enabled := some true })
  | StoreOp.disable _, o => o.map (fun c => { c with enabled := some false })

/-- The key list of the store. -/
def keysOf (l : List (String × ServerConfig)) : List String :=
  l.map Prod.fst

/-- Concrete fully-populated config used by the concrete test states. -/
def cfgOf (cid : Nat) (en : Option Bool) (aid : Option Nat) : ServerConfig :=
  { channel_id := cid
    enabled := en
    last_action_id := aid
    guild_name := some "G"
    channel_name := some "c"
    added_at := some "t0" }

/-- Concrete store for the C1 counterexample: one tenant with cursor 5. -/
def c1db : ServerDB := ⟨[("1", cfgOf 10 (some false) (some 5))]⟩

/-- Concrete store for the C3 counterexample: one tenant with cursor 5. -/
def c3db : ServerDB := ⟨[("7", cfgOf 3 (some true) (some 5))]⟩

/-- Concrete store for the C3 witness. -/
def db3w : ServerDB := ⟨[("1", cfgOf 4 (some true) (some 2))]⟩

/-- Concrete stores for the C9 witness: tenant 1 present, then absent. -/
def db9 : ServerDB :=
  ⟨[("1", cfgOf 10 (some true) (some 3)), ("2", cfgOf 11 (some true) (some 4))]⟩

def db9n : ServerDB := ⟨[("2", cfgOf 11 (some true) (some 4))]⟩

/-- Concrete operation sequence and states for the C8 witness. -/
def ops8 : List StoreOp :=
  [StoreOp.upsert "1" 5 (some "G") (some "c") "t0", StoreOp.disable "2"]

def op8a : StoreOp := StoreOp.upsert "1" 5 (some "G") (some "c") "t0"

def op8b : StoreOp := StoreOp.remove "2"

def db8 : ServerDB := ⟨[("2", cfgOf 9 (some true) (some 0))]⟩

/-- Concrete config with a missing enabled key for the C10 witness. -/
def c10cfg : ServerConfig :=
  { channel_id := 8
    enabled := none
    last_action_id := some 1
    guild_name := none
    channel_name := none
    added_at := none }

/-- Concrete diff record for the C5 witness. -/
def rec5 : ActivityRecord :=
  { squadron_name := some "X"
    tag := some "X1"
    total_experience_diff := some 1500
    timestamp := some "2024-01-01 12:00:00" }

/-- Concrete diff record used by the cycle test environments. -/
def rec2 : ActivityRecord :=
  { squadron_name := some "Y"
    tag := some "Y1"
    total_experience_diff := some 200
    timestamp := some "2024-02-02 08:00:00" }

/-- Concrete store and environment for the C2 counterexample: two active
tenants behind the head, delivery succeeds, the storage write raises for
tenant 1. -/
def db2 : ServerDB :=
  ⟨[("1", cfgOf 10 (some true) (some 0)), ("2", cfgOf 11 (some true) (some 0))]⟩

def env2 : CycleEnv :=
  { leaderboard := some 5
    diff := some [rec2]
    send := fun _ => SendOutcome.sendOk
    raisesOnUpdate := fun g => g == "1" }

/-- Concrete data for the C2 amended-claim witness. -/
def db2b : ServerDB :=
  ⟨[("1", cfgOf 10 (some true) (some 0)), ("2", cfgOf 11 (some true) (some 0))]⟩

def env2b : CycleEnv :=
  { leaderboard := some 5
    diff := some [rec2]
    send := fun _ => SendOutcome.sendOk
    raisesOnUpdate := fun g => g == "1" }

def i1b : ActiveInfo :=
  { guild_id := "1", channel_id := 10, last_action_id := 0
    guild_name := "G", channel_name := "c" }

def i2b : ActiveInfo :=
  { guild_id := "2", channel_id := 11, last_action_id := 0
    guild_name := "G", channel_name := "c" }

def r2b : ServerDB × CycleLog :=
  (update_last_action_id db2b "1" 5, logFDD emptyLog "1")

/-- Concrete data for the C4 witness: cursor equal to the head. -/
def db4 : ServerDB := ⟨[("1", cfgOf 10 (some true) (some 9))]⟩

def env4 : CycleEnv :=
  { leaderboard := some 9
    diff := some [rec2]
    send := fun _ => SendOutcome.sendOk
    raisesOnUpdate := fun _ => false }

/-- Concrete data for the C6 witness: destination gone. -/
def db6 : ServerDB := ⟨[("1", cfgOf 10 (some true) (some 0))]⟩

def info6 : ActiveInfo :=
  { guild_id := "1", channel_id := 10, last_action_id := 0
    guild_name := "G", channel_name := "c" }

def env6 : CycleEnv :=
  { leaderboard := some 5
    diff := some [rec2]
    send := fun _ => SendOutcome.channelNone
    raisesOnUpdate := fun _ => false }

/-- Concrete data for the C7 witness: permission failure. -/
def db7 : ServerDB := ⟨[("1", cfgOf 10 (some true) (some 0))]⟩

def info7 : ActiveInfo :=
  { guild_id := "1", channel_id := 10, last_action_id := 0
    guild_name := "G", channel_name := "c" }

def env7 : CycleEnv :=
  { leaderboard := some 5
    diff := some [rec2]
    send := fun _ => SendOutcome.forbidden
    raisesOnUpdate := fun _ => false }

/-! Supporting lemmas about the store primitives. -/

theorem keysOf_nil : keysOf [] = [] := rfl

theorem keysOf_cons (p : String × ServerConfig) (l : List (String × ServerConfig)) :
    keysOf (p :: l) = p.1 :: keysOf l := rfl

theorem lookupCfg_dictInsert (g k : String) (v : ServerConfig)
    (l : List (String × ServerConfig)) :
    lookupCfg (dictInsert g v l) k = if k = g then some v else lookupCfg l k := by
  induction l with
  | nil =>
    by_cases h : k = g
    · subst h; simp [dictInsert, lookupCfg]
    · have h2 : ¬g = k := fun hh => h hh.symm
      simp [dictInsert, lookupCfg, h, h2]
  | cons p rest ih =>
    obtain ⟨a, b⟩ := p
    by_cases hag : a = g
    · subst hag
      by_cases hk : k = a
      · subst hk; simp [dictInsert, lookupCfg]
      · have hk2 : ¬a = k := fun hh => hk hh.symm
        simp [dictInsert, lookupCfg, hk, hk2]
    · by_cases hak : a = k
      · subst hak
        simp [dictInsert, lookupCfg, hag]
      · simp [dictInsert, lookupCfg, hag, hak, ih]

theorem lookupCfg_dictErase (g k : String) (l : List (String × ServerConfig)) :
    lookupCfg (dictErase g l) k = if k = g then none else lookupCfg l k := by
  induction l with
  | nil => simp [dictErase, lookupCfg]
  | cons p rest ih =>
    obtain ⟨a, b⟩ := p
    by_cases hag : a = g
    · subst hag
      by_cases hk : k = a
      · subst hk; simp [dictErase, ih]
      · have hk2 : ¬a = k := fun hh => hk hh.symm
        simp [dictErase, lookupCfg, hk, hk2, ih]
    · by_cases hak : a = k
      · subst hak
        simp [dictErase, lookupCfg, hag]
      · simp [dictErase, lookupCfg, hag, hak, ih]

theorem lookupCfg_dictModify (g k : String) (f : ServerConfig → ServerConfig)
    (l : List (String × ServerConfig)) :
    lookupCfg (dictModify g f l) k =
      if k = g then (lookupCfg l k).map f else lookupCfg l k := by
  induction l with
  | nil => simp [dictModify, lookupCfg]
  | cons p rest ih =>
    obtain ⟨a, b⟩ := p
    by_cases hag : a = g
    · subst hag
      by_cases hk : k = a
      · subst hk; simp [dictModify, lookupCfg]
      · have hk2 : ¬a = k := fun hh => hk hh.symm
        simp [dictModify, lookupCfg, hk, hk2, ih]
    · by_cases hak : a = k
      · subst hak
        simp [dictModify, lookupCfg, hag]
      · simp [dictModify, lookupCfg, hag, hak, ih]

theorem dictModify_of_absent (g : String) (f : ServerConfig → ServerConfig)
    (l : List (String × ServerConfig)) (h : lookupCfg l g = none) :
    dictModify g f l = l := by
  induction l with
  | nil => rfl
  | cons p rest ih =>
    obtain ⟨a, b⟩ := p
    by_cases hag : a = g
    · exfalso
      simp only [lookupCfg, if_pos hag] at h
      exact Option.noConfusion h
    · simp only [lookupCfg, if_neg hag] at h
      simp [dictModify, hag, ih h]

theorem mem_keysOf_dictInsert {x g : String} {v : ServerConfig}
    {l : List (String × ServerConfig)} :
    x ∈ keysOf (dictInsert g v l) ↔ x = g ∨ x ∈ keysOf l := by
  induction l with
  | nil => simp [dictInsert, keysOf]
  | cons p rest ih =>
    obtain ⟨a, b⟩ := p
    by_cases hag : a = g
    · subst hag
      simp [dictInsert, keysOf_cons, List.mem_cons]
    · simp only [dictInsert, if_neg hag, keysOf_cons, List.mem_cons, ih]
      tauto

theorem nodup_keysOf_dictInsert {g : String} {v : ServerConfig}
    {l : List (String × ServerConfig)} (h : (keysOf l).Nodup) :
    (keysOf (dictInsert g v l)).Nodup := by
  induction l with
  | nil => simp [dictInsert, keysOf]
  | cons p rest ih =>
    rw [keysOf_cons, List.nodup_cons] at h
    by_cases hpg : p.1 = g
    · simp only [dictInsert, if_pos hpg, keysOf_cons, List.nodup_cons]
      exact ⟨hpg ▸ h.1, h.2⟩
    · simp only [dictInsert, if_neg hpg, keysOf_cons, List.nodup_cons]
      refine ⟨fun hm => ?_, ih h.2⟩
      rcases mem_keysOf_dictInsert.mp hm with h1 | h2
      · exact hpg h1
      · exact h.1 h2

theorem mem_keysOf_dictErase_imp {x g : String} {l : List (String × ServerConfig)}
    (h : x ∈ keysOf (dictErase g l)) : x ∈ keysOf l := by
  induction l with
  | nil => simp [dictErase, keysOf] at h
  | cons p rest ih =>
    by_cases hpg : p.1 = g
    · rw [dictErase, if_pos hpg] at h
      exact (keysOf_cons p rest) ▸ List.mem_cons_of_mem _ (ih h)
    · rw [dictErase, if_neg hpg, keysOf_cons] at h
      rcases List.mem_cons.mp h with h1 | h2
      · exact (keysOf_cons p rest) ▸ List.mem_cons.mpr (Or.inl h1)
      · exact (keysOf_cons p rest) ▸ List.mem_cons.mpr (Or.inr (ih h2))

theorem not_mem_keysOf_dictErase (g : String) (l : List (String × ServerConfig)) :
    g ∉ keysOf (dictErase g l) := by
  induction l with
  | nil => simp [dictErase, keysOf]
  | cons p rest ih =>
    by_cases hpg : p.1 = g
    · rw [dictErase, if_pos hpg]; exact ih
    · rw [dictErase, if_neg hpg, keysOf_cons]
      intro h
      rcases List.mem_cons.mp h with h1 | h2
      · exact hpg h1.symm
      · exact ih h2

theorem nodup_keysOf_dictErase {g : String} {l : List (String × ServerConfig)}
    (h : (keysOf l).Nodup) : (keysOf (dictErase g l)).Nodup := by
  induction l with
  | nil => simp [dictErase, keysOf]
  | cons p rest ih =>
    rw [keysOf_cons, List.nodup_cons] at h
    by_cases hpg : p.1 = g
    · rw [dictErase, if_pos hpg]; exact ih h.2
    · rw [dictErase, if_neg hpg, keysOf_cons, List.nodup_cons]
      exact ⟨fun hm => h.1 (mem_keysOf_dictErase_imp hm), ih h.2⟩

theorem keysOf_dictModify (g : String) (f : ServerConfig → ServerConfig)
    (l : List (String × ServerConfig)) :
    keysOf (dictModify g f l) = keysOf l := by
  induction l with
  | nil => rfl
  | cons p rest ih =>
    by_cases hpg : p.1 = g
    · rw [dictModify, if_pos hpg, keysOf_cons, keysOf_cons, ih]
    · rw [dictModify, if_neg hpg, keysOf_cons, keysOf_cons, ih]

theorem activeList_gid_mem_keysOf {info : ActiveInfo}
    {l : List (String × ServerConfig)} (h : info ∈ activeList l) :
    info.guild_id ∈ keysOf l := by
  induction l with
  | nil => simp [activeList] at h
  | cons p rest ih =>
    obtain ⟨a, c⟩ := p
    rw [keysOf_cons]
    cases he : c.enabled.getD true with
    | true =>
      rw [activeList] at h
      simp only [he, if_true] at h
      rcases List.mem_cons.mp h with h1 | h2
      · subst h1
        exact List.mem_cons.mpr (Or.inl rfl)
      · exact List.mem_cons.mpr (Or.inr (ih h2))
    | false =>
      rw [activeList] at h
      simp only [he, if_false] at h
      exact List.mem_cons.mpr (Or.inr (ih h))

theorem mem_activeList_ids_iff (l : List (String × ServerConfig))
    (hnd : (keysOf l).Nodup) (t : String) :
    t ∈ (activeList l).map ActiveInfo.guild_id ↔
      ∃ c, lookupCfg l t = some c ∧ c.enabled.getD true = true := by
  induction l with
  | nil => simp [activeList, lookupCfg]
  | cons p rest ih =>
    obtain ⟨a, c⟩ := p
    rw [keysOf_cons, List.nodup_cons] at hnd
    cases he : c.enabled.getD true with
    | true =>
      by_cases hat : a = t
      · subst hat
        simp only [activeList, he, if_true, List.map_cons, List.mem_cons, lookupCfg,
          if_pos rfl]
        constructor
        · intro _
          exact ⟨c, rfl, he⟩
        · intro _
          exact Or.inl trivial
      · simp only [activeList, he, if_true, List.map_cons, List.mem_cons, lookupCfg,
          if_neg hat]
        rw [ih hnd.2]
        constructor
        · rintro (h1 | h2)
          · exact absurd h1.symm hat
          · exact h2
        · intro h
          exact Or.inr h
    | false =>
      by_cases hat : a = t
      · subst hat
        simp only [activeList, he, if_false, lookupCfg, if_pos rfl]
        constructor
        · intro hmem
          exfalso
          obtain ⟨info, hinfo, hgid⟩ := List.mem_map.mp hmem
          exact hnd.1 (hgid ▸ activeList_gid_mem_keysOf hinfo)
        · rintro ⟨c2, hc2, hen⟩
          cases hc2
          exact absurd hen (by simp [he])
      · simp only [activeList, he, if_false, lookupCfg, if_neg hat]
        exact ih hnd.2

theorem activeList_cursor_of_lookup {l : List (String × ServerConfig)}
    (hnd : (keysOf l).Nodup) {t : String} {c : ServerConfig}
    (hl : lookupCfg l t = some c) {info : ActiveInfo}
    (hm : info ∈ activeList l) (hg : info.guild_id = t) :
    info.last_action_id = c.last_action_id.getD 0 := by
  induction l with
  | nil => simp [activeList] at hm
  | cons p rest ih =>
    obtain ⟨a, cc⟩ := p
    rw [keysOf_cons, List.nodup_cons] at hnd
    cases he : cc.enabled.getD true with
    | true =>
      rw [activeList] at hm
      simp only [he, if_true] at hm
      rcases List.mem_cons.mp hm with h1 | h2
      · subst h1
        simp only [lookupCfg] at hl
        rw [if_pos hg] at hl
        cases hl
        rfl
      · by_cases hat : a = t
        · exfalso
          subst hat
          exact hnd.1 (hg ▸ activeList_gid_mem_keysOf h2)
        · simp only [lookupCfg, if_neg hat] at hl
          exact ih hnd.2 hl h2
    | false =>
      rw [activeList] at hm
      simp only [he, if_false] at hm
      by_cases hat : a = t
      · exfalso
        subst hat
        exact hnd.1 (hg ▸ activeList_gid_mem_keysOf hm)
      · simp only [lookupCfg, if_neg hat] at hl
        exact ih hnd.2 hl hm

theorem activeList_append (l1 l2 : List (String × ServerConfig)) :
    activeList (l1 ++ l2) = activeList l1 ++ activeList l2 := by
  induction l1 with
  | nil => rfl
  | cons p rest ih =>
    obtain ⟨a, c⟩ := p
    cases he : c.enabled.getD true with
    | true => simp [activeList, he, ih]
    | false => simp [activeList, he, ih]

theorem countEnabled_append (l1 l2 : List (String × ServerConfig)) :
    countEnabled (l1 ++ l2) = countEnabled l1 + countEnabled l2 := by
  induction l1 with
  | nil => simp [countEnabled]
  | cons p rest ih =>
    obtain ⟨a, c⟩ := p
    simp [countEnabled, ih, Nat.add_assoc]

theorem lookup_applyOp (db : ServerDB) (op : StoreOp) (k : String) :
    (applyOp db op).lookup k =
      if k = op.gid then opEffect op (db.lookup k) else db.lookup k := by
  cases op with
  | upsert g cid gn cn now =>
    simp [applyOp, add_server, StoreOp.gid, opEffect, ServerDB.lookup,
      lookupCfg_dictInsert]
  | remove g =>
    simp only [applyOp, remove_server, StoreOp.gid, opEffect, ServerDB.lookup,
      lookupCfg_dictErase]
  | enable g =>
    simp only [applyOp, enable_server, StoreOp.gid, opEffect, ServerDB.lookup,
      lookupCfg_dictModify]
  | disable g =>
    simp only [applyOp, disable_server, StoreOp.gid, opEffect, ServerDB.lookup,
      lookupCfg_dictModify]

theorem nodup_keysOf_applyOp {db : ServerDB}
    (h : (keysOf db.servers).Nodup) (op : StoreOp) :
    (keysOf (applyOp db op).servers).Nodup := by
  cases op with
  | upsert g cid gn cn now => exact nodup_keysOf_dictInsert h
  | remove g => exact nodup_keysOf_dictErase h
  | enable g =>
    show (keysOf (dictModify g _ db.servers)).Nodup
    rw [keysOf_dictModify]
    exact h
  | disable g =>
    show (keysOf (dictModify g _ db.servers)).Nodup
    rw [keysOf_dictModify]
    exact h

theorem nodup_keysOf_runOps (ops : List StoreOp) :
    (keysOf (runOps ops).servers).Nodup := by
  suffices h : ∀ db : ServerDB, (keysOf db.servers).Nodup →
      (keysOf (ops.foldl applyOp db).servers).Nodup by
    exact h ⟨[]⟩ (by simp [keysOf])
  induction ops with
  | nil =>
    intro db h
    simpa using h
  | cons op rest ih =>
    intro db h
    exact ih _ (nodup_keysOf_applyOp h op)

theorem not_mem_activeIds_remove (db : ServerDB) (g : String) :
    g ∉ activeIds (remove_server db g) := by
  intro h
  obtain ⟨info, hi, hgid⟩ := List.mem_map.mp h
  have hi2 : info ∈ activeList (dictErase g db.servers) := hi
  have hk : info.guild_id ∈ keysOf (dictErase g db.servers) :=
    activeList_gid_mem_keysOf hi2
  rw [hgid] at hk
  exact not_mem_keysOf_dictErase g db.servers hk

theorem processOne_skip (env : CycleEnv) (head : Nat) (st : ServerDB × CycleLog)
    (info : ActiveInfo) (h : ¬head > info.last_action_id) :
    processOne env head st info = Except.ok st := by
  simp [processOne, h]

theorem send_update_lookup_ne (db : ServerDB) (info : ActiveInfo)
    (out : SendOutcome) (t : String) (hne : info.guild_id ≠ t) :
    (send_update_to_server db info out).1.lookup t = db.lookup t := by
  have h2 : ¬t = info.guild_id := fun hh => hne hh.symm
  cases out <;>
    simp [send_update_to_server, remove_server, ServerDB.lookup,
      lookupCfg_dictErase, h2]

theorem update_lookup_ne (db : ServerDB) (g : String) (aid : Nat) (t : String)
    (hne : ¬t = g) :
    (update_last_action_id db g aid).lookup t = db.lookup t := by
  simp [update_last_action_id, ServerDB.lookup, lookupCfg_dictModify, hne]

theorem processOne_frame (env : CycleEnv) (head : Nat) (st : ServerDB × CycleLog)
    (info : ActiveInfo) (t : String) (hne : info.guild_id ≠ t) :
    (outState (processOne env head st info)).1.lookup t = st.1.lookup t ∧
    (t ∈ (outState (processOne env head st info)).2.fetched → t ∈ st.2.fetched) ∧
    (t ∈ (outState (processOne env head st info)).2.dispatched →
      t ∈ st.2.dispatched) ∧
    (t ∈ (outState (processOne env head st info)).2.delivered →
      t ∈ st.2.delivered) := by
  have h2 : ¬t = info.guild_id := fun hh => hne hh.symm
  unfold processOne
  split_ifs with h1 h3 h4 h5 <;>
    simp [outState, logF, logFD, logFDD, update_lookup_ne _ _ _ _ h2,
      send_update_lookup_ne _ _ _ _ hne, List.mem_append, h2]

theorem processServers_frame (env : CycleEnv) (head : Nat) (t : String) :
    ∀ (l : List ActiveInfo) (st : ServerDB × CycleLog),
      (∀ info ∈ l, info.guild_id = t → ¬head > info.last_action_id) →
      (outState (processServers env head st l)).1.lookup t = st.1.lookup t ∧
      (t ∈ (outState (processServers env head st l)).2.fetched →
        t ∈ st.2.fetched) ∧
      (t ∈ (outState (processServers env head st l)).2.dispatched →
        t ∈ st.2.dispatched) ∧
      (t ∈ (outState (processServers env head st l)).2.delivered →
        t ∈ st.2.delivered) := by
  intro l
  induction l with
  | nil =>
    intro st _
    simp [processServers, outState]
  | cons info rest ih =>
    intro st h
    by_cases hgt : info.guild_id = t
    · have hskip : ¬head > info.last_action_id :=
        h info (List.mem_cons_self info rest) hgt
      rw [processServers, processOne_skip env head st info hskip]
      exact ih st fun i hi => h i (List.mem_cons_of_mem _ hi)
    · have hfr := processOne_frame env head st info t hgt
      cases hpo : processOne env head st info with
      | ok st2 =>
        rw [hpo] at hfr
        simp only [outState] at hfr
        have hrest := ih st2 fun i hi => h i (List.mem_cons_of_mem _ hi)
        rw [processServers, hpo]
        refine ⟨hrest.1.trans hfr.1, ?_, ?_, ?_⟩
        · exact fun hm => hfr.2.1 (hrest.2.1 hm)
        · exact fun hm => hfr.2.2.1 (hrest.2.2.1 hm)
        · exact fun hm => hfr.2.2.2 (hrest.2.2.2 hm)
      | error e =>
        rw [hpo] at hfr
        simp only [outState] at hfr
        rw [processServers, hpo]
        simpa only [outState] using hfr

theorem processServers_error_append (env : CycleEnv) (head : Nat) :
    ∀ (xs ys : List ActiveInfo) (st : ServerDB × CycleLog)
      (r : ServerDB × CycleLog),
      processServers env head st xs = Except.error r →
      processServers env head st (xs ++ ys) = Except.error r := by
  intro xs
  induction xs with
  | nil =>
    intro ys st r h
    simp [processServers] at h
  | cons info rest ih =>
    intro ys st r h
    rw [processServers] at h
    rw [List.cons_append, processServers]
    cases hpo : processOne env head st info with
    | ok st2 =>
      rw [hpo] at h
      exact ih ys st2 r h
    | error e =>
      rw [hpo] at h
      exact h

theorem processOne_dispatched_sub (env : CycleEnv) (head : Nat)
    (st : ServerDB × CycleLog) (info : ActiveInfo) (t : String)
    (h : t ∈ (outState (processOne env head st info)).2.dispatched) :
    t ∈ st.2.dispatched ∨ t = info.guild_id := by
  unfold processOne at h
  split_ifs at h <;>
    simp only [outState, logF, logFD, logFDD, List.mem_append,
      List.mem_singleton] at h <;>
    tauto

theorem processServers_dispatched_sub (env : CycleEnv) (head : Nat) (t : String) :
    ∀ (l : List ActiveInfo) (st : ServerDB × CycleLog),
      t ∈ (outState (processServers env head st l)).2.dispatched →
      t ∈ st.2.dispatched ∨ t ∈ l.map ActiveInfo.guild_id := by
  intro l
  induction l with
  | nil =>
    intro st h
    simp only [processServers, outState] at h
    exact Or.inl h
  | cons info rest ih =>
    intro st h
    rw [processServers] at h
    cases hpo : processOne env head st info with
    | ok st2 =>
      rw [hpo] at h
      rcases ih st2 h with h1 | h2
      · have hsub := processOne_dispatched_sub env head st info t
        rw [hpo] at hsub
        simp only [outState] at hsub
        rcases hsub h1 with ha | hb
        · exact Or.inl ha
        · exact Or.inr (by simp [hb])
      · exact Or.inr (by simp [h2])
    | error e =>
      rw [hpo] at h
      simp only [outState] at h
      have hsub := processOne_dispatched_sub env head st info t
      rw [hpo] at hsub
      simp only [outState] at hsub
      rcases hsub h with ha | hb
      · exact Or.inl ha
      · exact Or.inr (by simp [hb])

theorem lastD_map (f : ActivityRecord → String) :
    ∀ (l : List ActivityRecord) (r : ActivityRecord), l.getLast? = some r →
      lastD (l.map f) "" = f r := by
  intro l
  induction l with
  | nil =>
    intro r h
    simp at h
  | cons a tl ih =>
    intro r h
    cases tl with
    | nil =>
      simp only [List.getLast?_singleton, Option.some.injEq] at h
      subst h
      rfl
    | cons b tl2 =>
      rw [List.getLast?_cons_cons] at h
      simp only [List.map_cons]
      rw [lastD]
      rw [← List.map_cons]
      exact ih r h

/-! Claim theorems. -/

/-- C1 counterexample: with tenant 1 present at cursor 5, add_server
(the upsert) stores cursor 0, so the cursor of an existing tenant is not
preserved. -/
theorem C1_upsert_cursor_counterexample :
    (c1db.lookup "1").map ServerConfig.last_action_id = some (some 5) ∧
    ((add_server c1db "1" 99 (some "G2") (some "c2") "t1").lookup "1").map
      ServerConfig.last_action_id = some (some 0) ∧
    ¬((add_server c1db "1" 99 (some "G2") (some "c2") "t1").lookup "1").map
      ServerConfig.last_action_id = some (some 5) := by
  decide

/-- C1 (amended): add_server overwrites the entry of the given tenant
unconditionally with a fresh config: enabled becomes true, destination
and name fields are overwritten, and the cursor is reset to 0 whether or
not the tenant was present (it is not preserved); entries of other
tenants are unchanged. -/
theorem C1_upsert_overwrites (db : ServerDB) (g : String) (cid : Nat)
    (gn cn : Option String) (now : String) (k : String) :
    (add_server db g cid gn cn now).lookup k =
      if k = g then some (newServerConfig cid gn cn now) else db.lookup k := by
  simp [add_server, ServerDB.lookup, lookupCfg_dictInsert]

/-- C3 counterexample: update_last_action_id moves the cursor of tenant 7
from 5 down to 3, so a single store operation can decrease a cursor. -/
theorem C3_cursor_decrease_counterexample :
    (c3db.lookup "7").map ServerConfig.last_action_id = some (some 5) ∧
    ((update_last_action_id c3db "7" 3).lookup "7").map
      ServerConfig.last_action_id = some (some 3) ∧
    (3 : Nat) < 5 := by
  decide

/-- C3 (amended): update_last_action_id sets the cursor of a present
tenant unconditionally to the given value, with no max check, so the
cursor can decrease (add_server likewise resets it to 0). -/
theorem C3_advance_sets_unconditionally (db : ServerDB) (g : String)
    (aid : Nat) (c : ServerConfig) (h : db.lookup g = some c) :
    (update_last_action_id db g aid).lookup g =
      some { c with last_action_id := some aid } := by
  have h2 : lookupCfg db.servers g = some c := h
  simp [update_last_action_id, ServerDB.lookup, lookupCfg_dictModify, h2]

/-- Witness for the amended C3 statement at a concrete store. -/
theorem C3_advance_sets_unconditionally_witness :
    db3w.lookup "1" = some (cfgOf 4 (some true) (some 2)) ∧
    (update_last_action_id db3w "1" 9).lookup "1" =
      some { cfgOf 4 (some true) (some 2) with last_action_id := some 9 } :=
  ⟨by decide,
   C3_advance_sets_unconditionally db3w "1" 9 (cfgOf 4 (some true) (some 2))
     (by decide)⟩

/-- C9: update_last_action_id only rewrites the last_action_id field of
the addressed tenant (all other fields kept), leaves every other key
unchanged, and is the identity on the whole store when the tenant is
absent. -/
theorem C9_advance_frame (db : ServerDB) (g : String) (aid : Nat) :
    ((update_last_action_id db g aid).lookup g =
      (db.lookup g).map fun c => { c with last_action_id := some aid }) ∧
    (∀ k : String, ¬k = g →
      (update_last_action_id db g aid).lookup k = db.lookup k) ∧
    (db.lookup g = none → update_last_action_id db g aid = db) := by
  refine ⟨?_, ?_, ?_⟩
  · simp [update_last_action_id, ServerDB.lookup, lookupCfg_dictModify]
  · intro k hk
    simp [update_last_action_id, ServerDB.lookup, lookupCfg_dictModify, hk]
  · intro h
    have h2 : lookupCfg db.servers g = none := h
    show (⟨dictModify g _ db.servers⟩ : ServerDB) = db
    rw [dictModify_of_absent g _ db.servers h2]

/-- Witness for C9 at concrete stores: another key is untouched, and an
absent key leaves the store identical. -/
theorem C9_advance_frame_witness :
    (¬("2" : String) = "1") ∧
    (update_last_action_id db9 "1" 7).lookup "2" = db9.lookup "2" ∧
    db9n.lookup "1" = none ∧
    update_last_action_id db9n "1" 7 = db9n :=
  ⟨by decide, (C9_advance_frame db9 "1" 7).2.1 "2" (by decide),
   by decide, (C9_advance_frame db9n "1" 7).2.2 (by decide)⟩

/-- C10: an entry without the enabled key counts as enabled, because
get_active_servers and get_server_count both read it with default true:
its guild id is listed active, and the enabled count is the same as if
the key were present and true. -/
theorem C10_missing_enabled_is_active (l1 l2 : List (String × ServerConfig))
    (g : String) (c : ServerConfig) (h : c.enabled = none) :
    g ∈ activeIds ⟨l1 ++ (g, c) :: l2⟩ ∧
    get_server_count ⟨l1 ++ (g, c) :: l2⟩ =
      get_server_count ⟨l1 ++ (g, { c with enabled := some true }) :: l2⟩ := by
  have hen : c.enabled.getD true = true := by rw [h]; rfl
  constructor
  · show g ∈ (activeList (l1 ++ (g, c) :: l2)).map ActiveInfo.guild_id
    rw [activeList_append]
    rw [List.map_append]
    rw [List.mem_append]
    right
    simp only [activeList, hen, if_true, List.map_cons, List.mem_cons]
    exact Or.inl trivial
  · show countEnabled (l1 ++ (g, c) :: l2) =
      countEnabled (l1 ++ (g, { c with enabled := some true }) :: l2)
    rw [countEnabled_append, countEnabled_append]
    simp [countEnabled, hen]

/-- Witness for C10 at a concrete one-entry store. -/
theorem C10_missing_enabled_is_active_witness :
    c10cfg.enabled = none ∧
    ("5" ∈ activeIds ⟨[] ++ ("5", c10cfg) :: []⟩ ∧
     get_server_count ⟨[] ++ ("5", c10cfg) :: []⟩ =
       get_server_count ⟨[] ++ ("5", { c10cfg with enabled := some true }) :: []⟩) :=
  ⟨rfl, C10_missing_enabled_is_active [] [] "5" c10cfg rfl⟩

/-- C8: after any sequence of upsert, remove, enable, or disable calls
from the empty store, the guild ids listed by get_active_servers are
exactly the present tenants whose enabled field reads true; and two
store operations on distinct tenants commute (the resulting lookups
agree at every key), so the outcome is order independent. -/
theorem C8_listActive_exact :
    (∀ (ops : List StoreOp) (t : String),
      t ∈ activeIds (runOps ops) ↔
        ∃ c, (runOps ops).lookup t = some c ∧ c.enabled.getD true = true) ∧
    (∀ (op1 op2 : StoreOp) (db : ServerDB) (k : String), op1.gid ≠ op2.gid →
      (applyOp (applyOp db op1) op2).lookup k =
        (applyOp (applyOp db op2) op1).lookup k) := by
  constructor
  · intro ops t
    exact mem_activeList_ids_iff (runOps ops).servers (nodup_keysOf_runOps ops) t
  · intro op1 op2 db k hne
    by_cases h1 : k = op1.gid
    · subst h1
      simp [lookup_applyOp, hne, Ne.symm hne]
    · by_cases h2 : k = op2.gid
      · subst h2
        simp [lookup_applyOp, hne, Ne.symm hne]
      · simp [lookup_applyOp, h1, h2]

/-- Witness for C8: the characterization at a concrete op sequence, and
commutation of two concrete operations on distinct tenants. -/
theorem C8_listActive_exact_witness :
    (("1" : String) ∈ activeIds (runOps ops8) ↔
      ∃ c, (runOps ops8).lookup "1" = some c ∧ c.enabled.getD true = true) ∧
    op8a.gid ≠ op8b.gid ∧
    (applyOp (applyOp db8 op8a) op8b).lookup "1" =
      (applyOp (applyOp db8 op8b) op8a).lookup "1" :=
  ⟨C8_listActive_exact.1 ops8 "1", by decide,
   C8_listActive_exact.2 op8a op8b db8 "1" (by decide)⟩

/-- C5: format_diff of a null or empty diff is (none, none); for a
nonempty list of N records the summary is the N rendered lines joined by
newline in input order, and the returned timestamp is the timestamp
field of the last record in input order. -/
theorem C5_format_diff_spec :
    format_diff none = (none, none) ∧
    format_diff (some []) = (none, none) ∧
    (∀ l : List ActivityRecord, l ≠ [] →
      (format_diff (some l)).1 =
        some (String.intercalate "\n" (l.map formatLine)) ∧
      (format_diff (some l)).2 =
        some (lastD (l.map fun r => r.timestamp.getD "") "")) ∧
    (∀ (l : List ActivityRecord) (r : ActivityRecord), l.getLast? = some r →
      (format_diff (some l)).2 = some (r.timestamp.getD "")) := by
  refine ⟨rfl, rfl, ?_, ?_⟩
  · intro l hl
    match l with
    | [] => exact absurd rfl hl
    | a :: tl => exact ⟨by simp [format_diff], by simp [format_diff]⟩
  · intro l r h
    match l with
    | [] => simp at h
    | a :: tl =>
      have hlast := lastD_map (fun r => r.timestamp.getD "") (a :: tl) r h
      simp [format_diff]
      simpa using hlast

/-- Witness for C5 at a concrete one-record diff. -/
theorem C5_format_diff_spec_witness :
    ([rec5] ≠ ([] : List ActivityRecord)) ∧
    (format_diff (some [rec5])).1 =
      some (String.intercalate "\n" ([rec5].map formatLine)) ∧
    (format_diff (some [rec5])).2 = some (rec5.timestamp.getD "") :=
  ⟨by simp, (C5_format_diff_spec.2.2.1 [rec5] (by simp)).1,
   C5_format_diff_spec.2.2.2 [rec5] rec5 rfl⟩

/-- C6: when the destination is gone (no channel found, or the send
raises NotFound), send_update_to_server removes the tenant and reports
failure, so the per-tenant step ends with the tenant deleted, the cursor
not advanced (no update_last_action_id runs; the delivered log is
unchanged), the tenant absent from the store, and absent from the next
get_active_servers result. -/
theorem C6_permanent_failure_removes (env : CycleEnv) (head : Nat)
    (st : ServerDB × CycleLog) (info : ActiveInfo)
    (hout : env.send info.guild_id = SendOutcome.channelNone ∨
      env.send info.guild_id = SendOutcome.notFound)
    (hcur : head > info.last_action_id) (hmsg : msgTruthy env = true) :
    processOne env head st info =
      Except.ok (remove_server st.1 info.guild_id, logFD st.2 info.guild_id) ∧
    (remove_server st.1 info.guild_id).lookup info.guild_id = none ∧
    info.guild_id ∉ activeIds (remove_server st.1 info.guild_id) := by
  have hsend : send_update_to_server st.1 info (env.send info.guild_id) =
      (remove_server st.1 info.guild_id, false) := by
    rcases hout with h | h <;> rw [h] <;> rfl
  refine ⟨?_, ?_, not_mem_activeIds_remove st.1 info.guild_id⟩
  · simp [processOne, hcur, hmsg, hsend]
  · simp [remove_server, ServerDB.lookup, lookupCfg_dictErase]

/-- Witness for C6 at a concrete state and environment. -/
theorem C6_permanent_failure_removes_witness :
    (env6.send info6.guild_id = SendOutcome.channelNone ∨
      env6.send info6.guild_id = SendOutcome.notFound) ∧
    5 > info6.last_action_id ∧
    msgTruthy env6 = true ∧
    (processOne env6 5 (db6, emptyLog) info6 =
      Except.ok (remove_server db6 info6.guild_id, logFD emptyLog info6.guild_id) ∧
    (remove_server db6 info6.guild_id).lookup info6.guild_id = none ∧
    info6.guild_id ∉ activeIds (remove_server db6 info6.guild_id)) :=
  ⟨Or.inl rfl, by decide, by decide,
   C6_permanent_failure_removes env6 5 (db6, emptyLog) info6 (Or.inl rfl)
     (by decide) (by decide)⟩

/-- C7: when the send raises Forbidden (no permission), the per-tenant
step returns the store component completely unchanged (tenant retained
with every field, including enabled, as before) and the delivered log
unchanged, so the cursor is not advanced in that cycle. -/
theorem C7_transient_keeps_tenant (env : CycleEnv) (head : Nat)
    (st : ServerDB × CycleLog) (info : ActiveInfo)
    (hout : env.send info.guild_id = SendOutcome.forbidden)
    (hcur : head > info.last_action_id) (hmsg : msgTruthy env = true) :
    processOne env head st info = Except.ok (st.1, logFD st.2 info.guild_id) := by
  simp [processOne, hcur, hmsg, hout, send_update_to_server]

/-- Witness for C7 at a concrete state and environment. -/
theorem C7_transient_keeps_tenant_witness :
    env7.send info7.guild_id = SendOutcome.forbidden ∧
    5 > info7.last_action_id ∧
    msgTruthy env7 = true ∧
    processOne env7 5 (db7, emptyLog) info7 =
      Except.ok (db7, logFD emptyLog info7.guild_id) :=
  ⟨rfl, by decide, by decide,
   C7_transient_keeps_tenant env7 5 (db7, emptyLog) info7 rfl (by decide)
     (by decide)⟩

/-- C2 counterexample: tenant 2 is active and behind the head, but when
processing tenant 1 raises (storage write), the cycle dispatches only to
tenant 1: the remaining tenant is not processed in that cycle, contrary
to the claim. -/
theorem C2_midcycle_exception_counterexample :
    "2" ∈ activeIds db2 ∧
    env2.leaderboard = some 5 ∧
    (db2.lookup "2").map ServerConfig.last_action_id = some (some 0) ∧
    env2.raisesOnUpdate "1" = true ∧
    (runCycle db2 env2).2.dispatched = ["1"] ∧
    "2" ∉ (runCycle db2 env2).2.fetched := by
  exact ⟨by decide, rfl, by decide, rfl, by decide, by decide⟩

/-- C2 (amended): an exception raised while processing one tenant is
caught at the cycle level, not the tenant level: the cycle returns
normally with the state reached (the loop does not crash and proceeds to
the next cycle), but the remaining tenants of that cycle are not
processed; nothing outside the prefix up to the raising tenant is
dispatched. -/
theorem C2_caught_cycle_skips_rest (db : ServerDB) (env : CycleEnv)
    (head : Nat) (xs ys : List ActiveInfo) (r : ServerDB × CycleLog)
    (hlb : env.leaderboard = some head)
    (hact : get_active_servers db = xs ++ ys)
    (herr : processServers env head (db, emptyLog) xs = Except.error r) :
    runCycle db env = r ∧
    ∀ t, t ∈ r.2.dispatched → t ∈ xs.map ActiveInfo.guild_id := by
  have hxs : xs ≠ [] := by
    rintro rfl
    rw [processServers] at herr
    exact Except.noConfusion herr
  have hfull := processServers_error_append env head xs ys (db, emptyLog) r herr
  constructor
  · have hemp : (xs ++ ys).isEmpty = false := by
      cases xs with
      | nil => exact absurd rfl hxs
      | cons a as => rfl
    simp only [runCycle, hlb]
    rw [hact]
    rw [hemp]
    simp only [Bool.false_eq_true, if_false]
    rw [hfull]
    rfl
  · intro t ht
    have h2 : t ∈ (outState (processServers env head (db, emptyLog) xs)).2.dispatched := by
      rw [herr]
      exact ht
    rcases processServers_dispatched_sub env head t xs (db, emptyLog) h2 with h3 | h4
    · simp [emptyLog] at h3
    · exact h4

/-- Witness for the amended C2 statement at a concrete two-tenant cycle. -/
theorem C2_caught_cycle_skips_rest_witness :
    runCycle db2b env2b = r2b ∧
    ∀ t, t ∈ r2b.2.dispatched → t ∈ [i1b].map ActiveInfo.guild_id :=
  C2_caught_cycle_skips_rest db2b env2b 5 [i1b] [i2b] r2b rfl rfl rfl

/-- C4: an active tenant whose cursor is at or past the fetched head is
skipped for the whole cycle: no diff fetch is attributed to it, it is
never passed to the dispatcher, nothing is delivered to it, and its
store entry (in particular the cursor) is unchanged; this covers a
cursor exactly equal to the head. -/
theorem C4_cursor_at_head_skipped (db : ServerDB) (env : CycleEnv)
    (head : Nat) (t : String) (c : ServerConfig)
    (hnd : (keysOf db.servers).Nodup)
    (hlb : env.leaderboard = some head)
    (hl : db.lookup t = some c)
    (hen : c.enabled.getD true = true)
    (hcur : head ≤ c.last_action_id.getD 0) :
    (runCycle db env).1.lookup t = some c ∧
    t ∉ (runCycle db env).2.fetched ∧
    t ∉ (runCycle db env).2.dispatched ∧
    t ∉ (runCycle db env).2.delivered := by
  have hyp : ∀ info ∈ get_active_servers db, info.guild_id = t →
      ¬head > info.last_action_id := by
    intro info hi hg
    have hc := activeList_cursor_of_lookup hnd (t := t) (c := c) hl hi hg
    omega
  simp only [runCycle, hlb]
  by_cases hemp : (get_active_servers db).isEmpty = true
  · rw [if_pos hemp]
    refine ⟨hl, ?_, ?_, ?_⟩ <;> simp [emptyLog]
  · rw [if_neg hemp]
    have hfr := processServers_frame env head t (get_active_servers db)
      (db, emptyLog) hyp
    refine ⟨hfr.1.trans hl, ?_, ?_, ?_⟩
    · intro hm
      have := hfr.2.1 hm
      simp [emptyLog] at this
    · intro hm
      have := hfr.2.2.1 hm
      simp [emptyLog] at this
    · intro hm
      have := hfr.2.2.2 hm
      simp [emptyLog] at this

/-- Witness for C4 at a concrete cycle with the cursor equal to the head. -/
theorem C4_cursor_at_head_skipped_witness :
    (keysOf db4.servers).Nodup ∧
    env4.leaderboard = some 9 ∧
    db4.lookup "1" = some (cfgOf 10 (some true) (some 9)) ∧
    (cfgOf 10 (some true) (some 9)).enabled.getD true = true ∧
    9 ≤ (cfgOf 10 (some true) (some 9)).last_action_id.getD 0 ∧
    ((runCycle db4 env4).1.lookup "1" = some (cfgOf 10 (some true) (some 9)) ∧
     "1" ∉ (runCycle db4 env4).2.fetched ∧
     "1" ∉ (runCycle db4 env4).2.dispatched ∧
     "1" ∉ (runCycle db4 env4).2.delivered) :=
  ⟨by decide, rfl, by decide, by decide, by decide,
   C4_cursor_at_head_skipped db4 env4 9 "1" (cfgOf 10 (some true) (some 9))
     (by decide) rfl (by decide) (by decide) (by decide)⟩

end CQC
